import Mathlib

/-!
Shallow embedding of the friendship / like-counter core of the
React-native-social-media-app repository.

The tables come from
`supabase/migrations/20251017032616_create_social_media_schema.sql`
(`profiles`, `friendships`, `posts`, `likes`, with their UNIQUE constraints
and row-level-security policies) and
`supabase/migrations/20251017032841_create_like_functions.sql`
(`increment_likes`, `decrement_likes`).

The client operations come from `app/(tabs)/friends.tsx`
(`loadFriends`, `searchUsers`, `sendFriendRequest`, `acceptRequest`,
`rejectRequest`, `removeFriend`, `handleLike`) and from the profile screen
(`handleFriendAction`) and reels screen (`handleLike`), which issue the same
store calls.
-/

namespace SocialApp

/-- Row of the `profiles` table (columns not used by any claim are omitted). -/
structure Profile where
  id : String
  username : String
  full_name : String
  deriving Repr, DecidableEq

/-- Row of the `friendships` table: `id`, `user_id` (requester), `friend_id`
(target), `status` (a free-form text column, `'pending'` by default). -/
structure Friendship where
  id : String
  user_id : String
  friend_id : String
  status : String
  deriving Repr, DecidableEq

/-- Row of the `posts` table; only the columns the like claims mention.
`likes_count integer DEFAULT 0`. -/
structure Post where
  id : String
  user_id : String
  likes_count : Int
  deriving Repr, DecidableEq

/-- Row of the `likes` table: `UNIQUE(user_id, post_id)`. -/
structure LikeRow where
  id : String
  user_id : String
  post_id : String
  deriving Repr, DecidableEq

/-- The data store: the four tables, each a list of rows. -/
structure DB where
  profiles : List Profile
  friendships : List Friendship
  posts : List Post
  likes : List LikeRow
  deriving Repr, DecidableEq

/-- Errors a store call can report: a UNIQUE-constraint violation, a
row-level-security WITH CHECK rejection, or a request PostgREST rejects
because the interpolated filter string does not parse. -/
inductive DBError where
  | uniqueViolation
  | rlsViolation
  | badRequest
  deriving Repr, DecidableEq

/-- INSERT into `friendships` as the authenticated user `auth`:
RLS policy "Users can create friendship requests" demands
`auth.uid() = user_id`; the table has `UNIQUE(user_id, friend_id)`
(an ordered-pair constraint). -/
def insertFriendship (db : DB) (auth : String) (row : Friendship) :
    Except DBError DB :=
  if row.user_id ≠ auth then .error .rlsViolation
  else if db.friendships.any
      (fun g => g.user_id == row.user_id && g.friend_id == row.friend_id) then
    .error .uniqueViolation
  else .ok { db with friendships := db.friendships ++ [row] }

/-- `sendFriendRequest` (friends.tsx lines 142-160): inserts
`{ user_id: user.id, friend_id: friendId, status: 'pending' }`.
The fresh primary key produced by `gen_random_uuid()` is passed in as
`newId`. -/
def sendFriendRequest (db : DB) (auth friendId newId : String) :
    Except DBError DB :=
  insertFriendship db auth
    { id := newId, user_id := auth, friend_id := friendId, status := "pending" }

/-- `acceptRequest` (friends.tsx lines 162-175):
`update({ status: 'accepted' }).eq('id', friendshipId)` as user `auth`.
RLS policy "Users can update friendship status" restricts the update to rows
with `auth.uid() = friend_id OR auth.uid() = user_id`; rows filtered out by
RLS are simply not updated, and the call reports no error even when zero rows
match. -/
def acceptRequest (db : DB) (auth friendshipId : String) : Except DBError DB :=
  .ok { db with friendships := db.friendships.map (fun f =>
      if f.id == friendshipId && (auth == f.friend_id || auth == f.user_id) then
        { f with status := "accepted" }
      else f) }

/-- DELETE from `friendships` by primary key (the shared body of
`rejectRequest`, friends.tsx lines 177-190, and `removeFriend`, lines
192-205, and of `handleFriendAction`'s unfriend branch). RLS policy
"Users can delete their friendships" limits deletion to rows with
`auth.uid() = user_id OR auth.uid() = friend_id`; the call reports no error
even when zero rows match. -/
def deleteFriendship (db : DB) (auth friendshipId : String) :
    Except DBError DB :=
  .ok { db with friendships := db.friendships.filter (fun f =>
      !(f.id == friendshipId && (auth == f.user_id || auth == f.friend_id))) }

/-- `rejectRequest` (friends.tsx lines 177-190). -/
def rejectRequest (db : DB) (auth friendshipId : String) : Except DBError DB :=
  deleteFriendship db auth friendshipId

/-- `removeFriend` (friends.tsx lines 192-205). -/
def removeFriend (db : DB) (auth friendshipId : String) : Except DBError DB :=
  deleteFriendship db auth friendshipId

/-- `loadFriends` (friends.tsx lines 47-73): selects from `friendships`
with `.eq('user_id', user.id).eq('status', 'accepted')` and renders the
profile joined through `friend_id`. We return the list of `friend_id`s
(the joined profile ids). Note the query filters on the `user_id` side
only. -/
def loadFriends (db : DB) (auth : String) : List String :=
  (db.friendships.filter
    (fun f => f.user_id == auth && f.status == "accepted")).map
      (fun f => f.friend_id)

/-- The rows the relationship lookup inside `searchUsers` (friends.tsx lines
122-126) and the profile screen selects:
`or(and(user_id.eq.a,friend_id.eq.b),and(user_id.eq.b,friend_id.eq.a))`. -/
def friendshipsBetween (db : DB) (a b : String) : List Friendship :=
  db.friendships.filter (fun f =>
    (f.user_id == a && f.friend_id == b) || (f.user_id == b && f.friend_id == a))

/-- The `.maybeSingle()` applied to that lookup: one row gives the row,
zero rows give none, and two or more rows make `maybeSingle` report an
error whose `data` is null — the callers read only `data`, so that case
also surfaces as none. -/
def findBetween (db : DB) (a b : String) : Option Friendship :=
  match friendshipsBetween db a b with
  | [f] => some f
  | _ => none

/-- INSERT into `likes` as user `auth`: the table has
`UNIQUE(user_id, post_id)`; RLS WITH CHECK `auth.uid() = user_id` holds by
construction because the client always inserts `user_id: user.id`. -/
def insertLike (db : DB) (auth postId newId : String) : Except DBError DB :=
  if db.likes.any (fun l => l.user_id == auth && l.post_id == postId) then
    .error .uniqueViolation
  else
    .ok { db with likes :=
      db.likes ++ [{ id := newId, user_id := auth, post_id := postId }] }

/-- DELETE from `likes` with `.eq('post_id', postId).eq('user_id', auth)`
(the unlike branch of `handleLike`). -/
def deleteLike (db : DB) (auth postId : String) : DB :=
  { db with likes :=
      db.likes.filter (fun l => !(l.post_id == postId && l.user_id == auth)) }

/-- `increment_likes` (create_like_functions.sql lines 13-20):
`UPDATE posts SET likes_count = likes_count + 1 WHERE id = post_id` —
a single atomic server-side update of the stored row. -/
def increment_likes (db : DB) (postId : String) : DB :=
  { db with posts := db.posts.map (fun p =>
      if p.id == postId then { p with likes_count := p.likes_count + 1 }
      else p) }

/-- `decrement_likes` (create_like_functions.sql lines 22-29):
`UPDATE posts SET likes_count = GREATEST(likes_count - 1, 0)
WHERE id = post_id`. -/
def decrement_likes (db : DB) (postId : String) : DB :=
  { db with posts := db.posts.map (fun p =>
      if p.id == postId then { p with likes_count := max (p.likes_count - 1) 0 }
      else p) }

/-- `handleLike` (friends.tsx lines 619-652, identically the reels screen):
when `isLiked` it deletes the like row and calls `decrement_likes`; otherwise
it inserts the like row and calls `increment_likes`. The results of the
ledger insert/delete and of the rpc calls are not inspected — a failed
insert (e.g. the UNIQUE violation of a duplicate like) is discarded and the
counter step still runs; the surrounding catch block only logs. -/
def handleLike (db : DB) (auth postId : String) (isLiked : Bool)
    (newId : String) : DB :=
  if isLiked then
    decrement_likes (deleteLike db auth postId) postId
  else
    let db1 := match insertLike db auth postId newId with
      | .ok d => d
      | .error _ => db
    increment_likes db1 postId

/-- Rows of `likes` referencing one post. -/
def likesFor (db : DB) (postId : String) : List LikeRow :=
  db.likes.filter (fun l => l.post_id == postId)

/-- Users holding a like row for one post. -/
def likersOf (db : DB) (postId : String) : List String :=
  (likesFor db postId).map (fun l => l.user_id)

/-- The stored `likes_count` of a post (`SELECT likes_count WHERE id = c`,
first matching row; 0 when the post is absent). -/
def postCount (posts : List Post) (postId : String) : Int :=
  match posts.find? (fun p => p.id == postId) with
  | some p => p.likes_count
  | none => 0

/-- The stored counter of post `postId` in store `db`. -/
def likesCountOf (db : DB) (postId : String) : Int :=
  postCount db.posts postId

/-- `liked_by_user` annotation computed by `loadPosts` (friends.tsx lines
593-607): whether a like row for `(auth, postId)` exists. -/
def liked_by_user (db : DB) (auth postId : String) : Bool :=
  db.likes.any (fun l => l.post_id == postId && l.user_id == auth)

/-- Run a list of `handleLike` calls (auth, postId, isLiked, newId), each
with an arbitrary `isLiked` flag — including unmatched unlikes. -/
def runHandleLikes : DB → List (String × String × Bool × String) → DB
  | db, [] => db
  | db, (auth, postId, isLiked, newId) :: rest =>
      runHandleLikes (handleLike db auth postId isLiked newId) rest

/-- Run a list of like-button presses (auth, newId) against one post the way
the UI issues them: each call passes `isLiked := liked_by_user` of the
current store, mirroring the `liked_by_user` state `loadPosts` maintains. -/
def runUILikes (postId : String) : DB → List (String × String) → DB
  | db, [] => db
  | db, (auth, newId) :: rest =>
      runUILikes postId
        (handleLike db auth postId (liked_by_user db auth postId) newId) rest

/-- One step of a concurrent-like interleaving on a fixed post: either one
session's ledger INSERT (its result discarded, as in `handleLike`) or one
session's atomic `increment_likes` rpc. -/
inductive LikeStep where
  | ins (userId newId : String)
  | inc
  deriving Repr, DecidableEq

/-- Apply one interleaved step to the shared store. -/
def applyStep (postId : String) (db : DB) : LikeStep → DB
  | .ins u newId =>
      match insertLike db u postId newId with
      | .ok d => d
      | .error _ => db
  | .inc => increment_likes db postId

/-- Execute an interleaving of like steps on the shared store. -/
def execSteps (postId : String) : DB → List LikeStep → DB
  | db, [] => db
  | db, s :: rest => execSteps postId (applyStep postId db s) rest

/-- The users of the insert steps of an interleaving, in order. -/
def insUsers : List LikeStep → List String
  | [] => []
  | .ins u _ :: rest => u :: insUsers rest
  | .inc :: rest => insUsers rest

/-- The number of increment steps of an interleaving. -/
def incCount : List LikeStep → Nat
  | [] => 0
  | .inc :: rest => incCount rest + 1
  | .ins _ _ :: rest => incCount rest

/-- Postgres LIKE pattern matching over characters: `%` matches any
(possibly empty) sequence, `_` matches exactly one character, the default
escape character `\` makes the following pattern character literal, and
anything else matches itself. A pattern ending in a lone escape character
raises an error in Postgres; the model makes it match nothing, and no
theorem below relies on that case (the interpolated pattern always ends in
`%`). `searchUsers` reaches this through PostgREST's `ilike` operator. -/
def likeMatch : List Char → List Char → Bool
  | [], s => s.isEmpty
  | p :: ps, s =>
    if p == '\\' then
      match ps, s with
      | q :: ps2, c :: rest => c == q && likeMatch ps2 rest
      | _, _ => false
    else if p == '%' then s.tails.any (fun t => likeMatch ps t)
    else
      match s with
      | [] => false
      | c :: rest => if p == '_' then likeMatch ps rest
                     else c == p && likeMatch ps rest

/-- Characters of a string folded to lower case (`ilike` is
case-insensitive LIKE). -/
def lowerStr (s : String) : List Char := s.toList.map Char.toLower

/-- PostgREST's translation of a `like`/`ilike` filter value before it is
sent to Postgres: every `*` becomes `%`. -/
def postgrestLikeValue (pat : String) : List Char :=
  pat.toList.map (fun ch => if ch == '*' then '%' else ch)

/-- PostgREST `ilike`: the filter value goes through the `*` → `%`
translation, then Postgres evaluates case-insensitive LIKE. -/
def ilike (pat s : String) : Bool :=
  likeMatch ((postgrestLikeValue pat).map Char.toLower) (lowerStr s)

/-- A profile annotated with the relationship lookup, as `searchUsers`
returns it. -/
structure SearchResult where
  profile : Profile
  friendship_id : Option String
  status : Option String
  deriving Repr, DecidableEq

/-- The profile select inside `searchUsers`:
`.neq('id', user.id).or(username.ilike.%query%, full_name.ilike.%query%).limit(20)`. -/
def searchFound (db : DB) (auth query : String) : List Profile :=
  (db.profiles.filter (fun p =>
      p.id != auth &&
        (ilike ("%" ++ query ++ "%") p.username ||
          ilike ("%" ++ query ++ "%") p.full_name))).take 20

/-- The per-result annotation inside `searchUsers`: the both-orderings
relationship lookup, `friendshipData?.id` and `friendshipData?.status`. -/
def annotate (db : DB) (auth : String) (p : Profile) : SearchResult :=
  { profile := p
    friendship_id := (findBetween db auth p.id).map (fun f => f.id)
    status := (findBetween db auth p.id).map (fun f => f.status) }

/-- The guard `!query.trim()` of `searchUsers`: true exactly when the query
is empty or consists only of whitespace. -/
def isBlank (query : String) : Bool :=
  query.toList.all (fun ch => ch.isWhitespace)

/-- The characters PostgREST reserves in an unquoted `.or(...)` filter
value: a comma separates conditions and parentheses delimit logic groups,
so a query containing one derails the interpolated filter string. -/
def reservedChar (ch : Char) : Bool :=
  ch == ',' || ch == '(' || ch == ')'

/-- `searchUsers` (friends.tsx lines 104-140). A blank query (JS
`!query.trim()`) short-circuits to an empty result before any store call.
The raw query is then interpolated unquoted into the
`.or(username.ilike.%query%,full_name.ilike.%query%)` filter string: a
query containing a reserved character (`,`, `(`, `)`) derails that string —
PostgREST rejects the malformed filter with a bad-request error in the
common case (a specially crafted query can instead parse as additional
injected filter conditions); the model maps this whole class to
`badRequest`, and no theorem below draws any conclusion from this branch.
Otherwise: the profile select (`searchFound`), then one relationship lookup
per returned profile. The second component counts the data-store requests
issued: none for a blank query, else one profile select plus one friendship
lookup per result. -/
def searchUsers (db : DB) (auth query : String) :
    Except DBError (List SearchResult × Nat) :=
  if isBlank query then .ok ([], 0)
  else if query.toList.any reservedChar then .error .badRequest
  else .ok ((searchFound db auth query).map (annotate db auth),
    1 + (searchFound db auth query).length)

/-- Written from the claim's words, not from the source: `q` matches the
start of `s`. -/
def firstMatch : List Char → List Char → Bool
  | [], _ => true
  | _ :: _, [] => false
  | a :: q, b :: s => b == a && firstMatch q s

/-- Written from the claim's words, not from the source: `q` occurs
contiguously somewhere inside `s`. -/
def containsSub (q : List Char) : List Char → Bool
  | [] => q.isEmpty
  | b :: s => firstMatch q (b :: s) || containsSub q s

/-- Written from the claim's words, not from the source: case-insensitive
substring test. -/
def containsCI (q s : String) : Bool := containsSub (lowerStr q) (lowerStr s)

/-- Written from the claim's words, not from the source: the behaviour the
claim ascribes to a non-blank search — case-insensitive substring match on
handle or display name, excluding the caller, capped at 20, each result
annotated with the both-orderings relationship lookup. -/
def searchProfilesSpec (db : DB) (auth query : String) : List SearchResult :=
  ((db.profiles.filter (fun p =>
      p.id != auth &&
        (containsCI query p.username || containsCI query p.full_name))).take
    20).map (annotate db auth)

/-- A pattern fragment free of the LIKE wildcards `%` and `_` and of the
LIKE escape character `\`. -/
def noWild (q : List Char) : Prop :=
  ∀ ch ∈ q, ch ≠ '%' ∧ ch ≠ '_' ∧ ch ≠ '\\'

instance (q : List Char) : Decidable (noWild q) := by
  unfold noWild; infer_instance

/-! ## Helper lemmas -/

/-- A successful `likes` insert leaves the `posts` table unchanged. -/
theorem insertLike_ok_posts {db d : DB} {a c nid : String}
    (h : insertLike db a c nid = Except.ok d) : d.posts = db.posts := by
  unfold insertLike at h
  split at h
  · exact (Except.noConfusion h)
  · cases h; rfl

/-- A successful `likes` insert appends exactly the new row. -/
theorem insertLike_ok_likes {db d : DB} {a c nid : String}
    (h : insertLike db a c nid = Except.ok d) :
    d.likes = db.likes ++ [{ id := nid, user_id := a, post_id := c }] := by
  unfold insertLike at h
  split at h
  · exact (Except.noConfusion h)
  · cases h; rfl

/-- The uniqueness test of `insertLike` is exactly the `liked_by_user`
annotation (the two queries spell the same conjunction in opposite order). -/
theorem insertLike_check_eq_liked (L : List LikeRow) (a c : String) :
    L.any (fun l => l.user_id == a && l.post_id == c)
      = L.any (fun l => l.post_id == c && l.user_id == a) := by
  induction L with
  | nil => rfl
  | cons l L ih => simp [List.any_cons, ih, Bool.and_comm]

/-- When the pair is not yet in the ledger the insert succeeds. -/
theorem insertLike_of_not_liked (db : DB) (a c nid : String)
    (h : liked_by_user db a c = false) :
    insertLike db a c nid =
      Except.ok { db with likes :=
        db.likes ++ [{ id := nid, user_id := a, post_id := c }] } := by
  unfold insertLike
  rw [insertLike_check_eq_liked]
  have hh : (db.likes.any fun l => l.post_id == c && l.user_id == a) = false := h
  simp [hh]

/-- When the pair is already in the ledger the insert reports the
UNIQUE-constraint conflict. -/
theorem insertLike_of_liked (db : DB) (a c nid : String)
    (h : liked_by_user db a c = true) :
    insertLike db a c nid = Except.error DBError.uniqueViolation := by
  unfold insertLike
  rw [insertLike_check_eq_liked]
  have hh : (db.likes.any fun l => l.post_id == c && l.user_id == a) = true := h
  simp [hh]

/-- `liked_by_user` is membership of the liker list of the post. -/
theorem liked_by_user_mem (db : DB) (a c : String) :
    liked_by_user db a c = true ↔ a ∈ likersOf db c := by
  simp [liked_by_user, likersOf, likesFor, List.any_eq_true, List.mem_map,
    List.mem_filter, Bool.and_eq_true, beq_iff_eq]
  constructor
  · rintro ⟨l, hl, h1, h2⟩; exact ⟨l, ⟨hl, h1⟩, h2⟩
  · rintro ⟨l, ⟨hl, h1⟩, h2⟩; exact ⟨l, hl, h1, h2⟩

/-! ## C2: unordered-pair uniqueness of `createRequest` -/

/-- C2 counterexample: after `createRequest(A, B)` has succeeded and its
record still exists, `createRequest(B, A)` does not fail with Conflict — it
succeeds, and the store then holds two relationship records for the
unordered pair `{A, B}`. -/
theorem reverse_request_succeeds :
    sendFriendRequest ⟨[], [⟨"f1", "A", "B", "pending"⟩], [], []⟩ "B" "A" "f2"
        = Except.ok
          ⟨[], [⟨"f1", "A", "B", "pending"⟩, ⟨"f2", "B", "A", "pending"⟩],
            [], []⟩ ∧
      (friendshipsBetween
        ⟨[], [⟨"f1", "A", "B", "pending"⟩, ⟨"f2", "B", "A", "pending"⟩],
          [], []⟩ "A" "B").length = 2 := by
  constructor
  · rfl
  · rfl

/-- C2 (amended): the `UNIQUE(user_id, friend_id)` constraint is ordered, so
only a repeated `createRequest(A, B)` in the same direction fails with the
store's uniqueness Conflict; a subsequent `createRequest(B, A)` in the
reverse direction succeeds whenever no `(B, A)` record exists, inserting a
second record for the unordered pair. -/
theorem createRequest_ordered_conflict_only (db : DB) (a b id1 id2 : String)
    (f : Friendship) (hf : f ∈ db.friendships)
    (hu : f.user_id = a) (hv : f.friend_id = b) :
    sendFriendRequest db a b id1 = Except.error DBError.uniqueViolation ∧
      ((∀ g ∈ db.friendships, ¬(g.user_id = b ∧ g.friend_id = a)) →
        ∃ db2, sendFriendRequest db b a id2 = Except.ok db2 ∧
          Friendship.mk id2 b a "pending" ∈ db2.friendships) := by
  constructor
  · unfold sendFriendRequest insertFriendship
    have hany : db.friendships.any
        (fun g => g.user_id == a && g.friend_id == b) = true := by
      simp only [List.any_eq_true, Bool.and_eq_true, beq_iff_eq]
      exact ⟨f, hf, hu, hv⟩
    simp [hany]
  · intro hnone
    unfold sendFriendRequest insertFriendship
    have hany : db.friendships.any
        (fun g => g.user_id == b && g.friend_id == a) = false := by
      simp only [List.any_eq_false, Bool.and_eq_true, beq_iff_eq]
      intro g hg
      exact hnone g hg
    refine ⟨{ db with friendships :=
      db.friendships ++ [⟨id2, b, a, "pending"⟩] }, ?_, ?_⟩
    · simp [hany]
    · simp

/-- C2 witness: a concrete store with an `(A, B)` record, exercising both
conjuncts of the amended theorem. -/
theorem createRequest_ordered_conflict_only_witness :
    sendFriendRequest ⟨[], [⟨"f1", "A", "B", "pending"⟩], [], []⟩ "A" "B" "f9"
        = Except.error DBError.uniqueViolation ∧
      ∃ db2,
        sendFriendRequest ⟨[], [⟨"f1", "A", "B", "pending"⟩], [], []⟩
            "B" "A" "f2" = Except.ok db2 ∧
          Friendship.mk "f2" "B" "A" "pending" ∈ db2.friendships := by
  have h := createRequest_ordered_conflict_only
    ⟨[], [⟨"f1", "A", "B", "pending"⟩], [], []⟩ "A" "B" "f9" "f2"
    ⟨"f1", "A", "B", "pending"⟩ (by decide) rfl rfl
  exact ⟨h.1, h.2 (by decide)⟩

/-! ## C3: authorization and state checks of `accept` -/

/-- C3 counterexample: on a pending record requested by A, `accept` invoked
by A — the requester, not the target — succeeds and marks the record
accepted (no Forbidden), and a second `accept` on the now-accepted record
succeeds again (no InvalidState). -/
theorem requester_can_accept :
    acceptRequest ⟨[], [⟨"f1", "A", "B", "pending"⟩], [], []⟩ "A" "f1"
        = Except.ok ⟨[], [⟨"f1", "A", "B", "accepted"⟩], [], []⟩ ∧
      acceptRequest ⟨[], [⟨"f1", "A", "B", "accepted"⟩], [], []⟩ "A" "f1"
        = Except.ok ⟨[], [⟨"f1", "A", "B", "accepted"⟩], [], []⟩ := by
  constructor
  · rfl
  · rfl

/-- C3 (amended): `accept(id, X)` never reports Forbidden or InvalidState:
the update succeeds unconditionally; every record with that id of which X is
a party — including X the requester, and regardless of its current status —
is set to accepted, while records of which X is not a party are left
unchanged (the row-level-security filter silently excludes them). -/
theorem acceptRequest_party_unconditional (db : DB) (auth fid : String) :
    ∃ db2, acceptRequest db auth fid = Except.ok db2 ∧
      (∀ f ∈ db.friendships, f.id = fid →
        (auth = f.user_id ∨ auth = f.friend_id) →
          { f with status := "accepted" } ∈ db2.friendships) ∧
      (∀ f ∈ db.friendships, auth ≠ f.user_id → auth ≠ f.friend_id →
        f ∈ db2.friendships) := by
  refine ⟨_, rfl, ?_, ?_⟩
  · intro f hf hid hp
    have hcond : (f.id == fid && (auth == f.friend_id || auth == f.user_id))
        = true := by
      rcases hp with h | h <;> simp [hid, h]
    refine List.mem_map.mpr ⟨f, hf, ?_⟩
    simp [hcond]
  · intro f hf h1 h2
    have hcond : (f.id == fid && (auth == f.friend_id || auth == f.user_id))
        = false := by
      simp [beq_eq_false_iff_ne]
      intro
      exact ⟨h2, h1⟩
    refine List.mem_map.mpr ⟨f, hf, ?_⟩
    simp [hcond]

/-- C3 witness: the requester A accepts their own pending request to B. -/
theorem acceptRequest_party_unconditional_witness :
    ∃ db2,
      acceptRequest ⟨[], [⟨"f1", "A", "B", "pending"⟩], [], []⟩ "A" "f1"
          = Except.ok db2 ∧
        Friendship.mk "f1" "A" "B" "accepted" ∈ db2.friendships := by
  obtain ⟨db2, h1, h2, _⟩ := acceptRequest_party_unconditional
    ⟨[], [⟨"f1", "A", "B", "pending"⟩], [], []⟩ "A" "f1"
  exact ⟨db2, h1,
    h2 ⟨"f1", "A", "B", "pending"⟩ (by decide) rfl (Or.inl rfl)⟩

/-! ## C4: symmetry of `listFriends` -/

/-- C4 counterexample: one accepted record with requester A and target B —
`listFriends(A)` contains B but `listFriends(B)` does not contain A, so the
claimed symmetry fails. -/
theorem loadFriends_asymmetric :
    "B" ∈ loadFriends ⟨[], [⟨"f1", "A", "B", "accepted"⟩], [], []⟩ "A" ∧
      "A" ∉ loadFriends ⟨[], [⟨"f1", "A", "B", "accepted"⟩], [], []⟩ "B" := by
  constructor
  · decide
  · decide

/-- C4 (amended): `listFriends(X)` contains Y exactly when an accepted
record with `user_id = X` (X the requester) and `friend_id = Y` exists; the
query filters on the requester side only, so an accepted relationship is
visible from the requester's list but not from the target's. -/
theorem loadFriends_requester_side_only (db : DB) (a b : String) :
    b ∈ loadFriends db a ↔
      ∃ f ∈ db.friendships,
        f.user_id = a ∧ f.friend_id = b ∧ f.status = "accepted" := by
  simp only [loadFriends, List.mem_map, List.mem_filter, Bool.and_eq_true,
    beq_iff_eq]
  constructor
  · rintro ⟨f, ⟨hf, h1, h3⟩, h2⟩
    exact ⟨f, hf, h1, h2, h3⟩
  · rintro ⟨f, hf, h1, h2, h3⟩
    exact ⟨f, ⟨hf, h1, h3⟩, h2⟩

/-! ## C8: self-request rejection -/

/-- C8 counterexample: `createRequest(A, A)` does not fail with
InvalidArgument — on an empty store it succeeds and inserts a pending
record with requester = target = A. -/
theorem self_request_succeeds :
    sendFriendRequest ⟨[], [], [], []⟩ "A" "A" "f1"
      = Except.ok ⟨[], [⟨"f1", "A", "A", "pending"⟩], [], []⟩ := by
  rfl

/-- C8 (amended): neither the client nor the schema checks
requester ≠ target, so `createRequest(A, A)` succeeds whenever no `(A, A)`
record already exists, inserting a pending self-relationship record. -/
theorem self_request_inserts_record (db : DB) (a nid : String)
    (h : ∀ g ∈ db.friendships, ¬(g.user_id = a ∧ g.friend_id = a)) :
    ∃ db2, sendFriendRequest db a a nid = Except.ok db2 ∧
      Friendship.mk nid a a "pending" ∈ db2.friendships := by
  unfold sendFriendRequest insertFriendship
  have hany : db.friendships.any
      (fun g => g.user_id == a && g.friend_id == a) = false := by
    simp only [List.any_eq_false, Bool.and_eq_true, beq_iff_eq]
    intro g hg
    exact h g hg
  refine ⟨{ db with friendships :=
    db.friendships ++ [⟨nid, a, a, "pending"⟩] }, ?_, ?_⟩
  · simp [hany]
  · simp

/-- C8 witness: the empty store. -/
theorem self_request_inserts_record_witness :
    ∃ db2, sendFriendRequest ⟨[], [], [], []⟩ "A" "A" "f1" = Except.ok db2 ∧
      Friendship.mk "f1" "A" "A" "pending" ∈ db2.friendships :=
  self_request_inserts_record ⟨[], [], [], []⟩ "A" "f1" (by decide)

/-! ## C9: error propagation -/

/-- C9 counterexample: with `(P, c)` already in the ledger and the counter
at 1, the ledger write inside `like` fails with the uniqueness conflict,
yet `handleLike` reports nothing and the counter step still runs: the store
ends with one LikeFact and a counter of 2. -/
theorem like_counter_runs_after_ledger_failure :
    insertLike ⟨[], [], [⟨"c", "o", 1⟩], [⟨"l1", "P", "c"⟩]⟩ "P" "c" "l2"
        = Except.error DBError.uniqueViolation ∧
      handleLike ⟨[], [], [⟨"c", "o", 1⟩], [⟨"l1", "P", "c"⟩]⟩ "P" "c" false "l2"
        = ⟨[], [], [⟨"c", "o", 2⟩], [⟨"l1", "P", "c"⟩]⟩ := by
  constructor
  · rfl
  · rfl

/-- C9 (amended): a Data Store failure of the ledger write inside `like` is
not surfaced to the caller and is not distinguishable from success:
`handleLike` discards the insert's result and unconditionally proceeds to
the counter step, behaving exactly as `increment_likes` on the unchanged
store. -/
theorem ledger_failure_silently_ignored (db : DB) (a c nid : String)
    (e : DBError) (h : insertLike db a c nid = Except.error e) :
    handleLike db a c false nid = increment_likes db c := by
  simp only [handleLike, Bool.false_eq_true, if_false, h]

/-- C9 witness: the concrete store of the counterexample scenario. -/
theorem ledger_failure_silently_ignored_witness :
    handleLike ⟨[], [], [⟨"c", "o", 1⟩], [⟨"l1", "P", "c"⟩]⟩ "P" "c" false "l2"
      = increment_likes ⟨[], [], [⟨"c", "o", 1⟩], [⟨"l1", "P", "c"⟩]⟩ "c" :=
  ledger_failure_silently_ignored
    ⟨[], [], [⟨"c", "o", 1⟩], [⟨"l1", "P", "c"⟩]⟩ "P" "c" "l2"
    DBError.uniqueViolation (by rfl)

/-! ## Counter arithmetic lemmas -/

/-- The stored count after `increment_likes`, when the post exists. -/
theorem postCount_inc (posts : List Post) (c : String)
    (h : ∃ p ∈ posts, p.id = c) :
    postCount (posts.map (fun p =>
      if p.id == c then { p with likes_count := p.likes_count + 1 } else p)) c
      = postCount posts c + 1 := by
  induction posts with
  | nil => simp at h
  | cons q posts ih =>
    by_cases hq : q.id = c
    · have hb : (q.id == c) = true := by simp [hq]
      simp only [List.map_cons, postCount, hb, if_true]
      rw [List.find?_cons_of_pos, List.find?_cons_of_pos]
      · simp [hq]
      · simp [hq]
    · have hb : (q.id == c) = false := by simp [hq]
      have h2 : ∃ p ∈ posts, p.id = c := by
        rcases h with ⟨p, hp, hpc⟩
        rcases List.mem_cons.mp hp with rfl | hp2
        · exact absurd hpc hq
        · exact ⟨p, hp2, hpc⟩
      simp only [List.map_cons, postCount, hb, if_false]
      rw [List.find?_cons_of_neg, List.find?_cons_of_neg]
      · exact ih h2
      · simp [hq]
      · simp [hq]

/-- The stored count after `decrement_likes`, when the post exists. -/
theorem postCount_dec (posts : List Post) (c : String)
    (h : ∃ p ∈ posts, p.id = c) :
    postCount (posts.map (fun p =>
      if p.id == c then { p with likes_count := max (p.likes_count - 1) 0 }
      else p)) c
      = max (postCount posts c - 1) 0 := by
  induction posts with
  | nil => simp at h
  | cons q posts ih =>
    by_cases hq : q.id = c
    · have hb : (q.id == c) = true := by simp [hq]
      simp only [List.map_cons, postCount, hb, if_true]
      rw [List.find?_cons_of_pos, List.find?_cons_of_pos]
      · simp [hq]
      · simp [hq]
    · have hb : (q.id == c) = false := by simp [hq]
      have h2 : ∃ p ∈ posts, p.id = c := by
        rcases h with ⟨p, hp, hpc⟩
        rcases List.mem_cons.mp hp with rfl | hp2
        · exact absurd hpc hq
        · exact ⟨p, hp2, hpc⟩
      simp only [List.map_cons, postCount, hb, if_false]
      rw [List.find?_cons_of_neg, List.find?_cons_of_neg]
      · exact ih h2
      · simp [hq]
      · simp [hq]

/-- The existence of a post id survives the per-row transform of the
counter rpcs, which never changes `id`. -/
theorem exists_post_map (posts : List Post) (c : String)
    (g : Post → Post) (hg : ∀ p, (g p).id = p.id)
    (h : ∃ p ∈ posts, p.id = c) : ∃ p ∈ posts.map g, p.id = c := by
  rcases h with ⟨p, hp, hpc⟩
  exact ⟨g p, List.mem_map_of_mem g hp, by rw [hg]; exact hpc⟩

/-! ## C1: counter/ledger consistency -/

/-- The likers of a post after the unlike ledger delete: everyone except
the deleting user. -/
theorem likers_delete (L : List LikeRow) (a c : String) :
    ((L.filter (fun l => !(l.post_id == c && l.user_id == a))).filter
        (fun l => l.post_id == c)).map (fun l => l.user_id)
      = ((L.filter (fun l => l.post_id == c)).map
          (fun l => l.user_id)).filter (fun u => !(u == a)) := by
  rw [List.filter_filter, List.filter_map, List.filter_filter]
  congr 1
  apply List.filter_congr
  intro l _
  cases hp : l.post_id == c <;> cases hu : l.user_id == a <;>
    simp [Function.comp, hp, hu]

/-- Removing one occurrence from a duplicate-free list shortens it by
exactly one. -/
theorem length_filter_ne_of_nodup (l : List String) (a : String)
    (hn : l.Nodup) (ha : a ∈ l) :
    (l.filter (fun u => !(u == a))).length + 1 = l.length := by
  induction l with
  | nil => simp at ha
  | cons x l ih =>
    by_cases hax : x = a
    · subst hax
      have hrest : l.filter (fun u => !(u == x)) = l := by
        rw [List.filter_eq_self]
        intro u hu
        have : u ≠ x := fun he => (List.nodup_cons.mp hn).1 (he ▸ hu)
        simp [this]
      simp [hrest]
    · have hal : a ∈ l := by
        rcases List.mem_cons.mp ha with h | h
        · exact absurd h.symm hax
        · exact h
      have := ih (List.nodup_cons.mp hn).2 hal
      have hxb : (!(x == a)) = true := by simp [hax]
      simp only [List.filter_cons, hxb, if_true, List.length_cons]
      omega

/-- The consistency invariant of one content item: the stored counter
equals the ledger cardinality, the ledger holds at most one row per user,
and the post row exists. -/
def LikeInv (db : DB) (c : String) : Prop :=
  likesCountOf db c = ((likersOf db c).length : Int) ∧
    (likersOf db c).Nodup ∧ (∃ p ∈ db.posts, p.id = c)

/-- One UI-guarded `handleLike` call (`isLiked` given by the current
`liked_by_user` state) preserves the consistency invariant. -/
theorem handleLike_ui_step (db : DB) (a c nid : String) (h : LikeInv db c) :
    LikeInv (handleLike db a c (liked_by_user db a c) nid) c := by
  obtain ⟨hcount, hnd, hpost⟩ := h
  cases hl : liked_by_user db a c with
  | false =>
    have hins := insertLike_of_not_liked db a c nid hl
    have hmem : a ∉ likersOf db c := fun hm =>
      by rw [(liked_by_user_mem db a c).mpr hm] at hl; exact Bool.noConfusion hl
    have hlik : likersOf
        (handleLike db a c false nid) c = likersOf db c ++ [a] := by
      simp only [handleLike, Bool.false_eq_true, if_false, hins]
      simp [likersOf, likesFor, increment_likes, List.filter_append]
    refine ⟨?_, ?_, ?_⟩
    · have hposts : (handleLike db a c false nid).posts
          = db.posts.map (fun p =>
              if p.id == c then { p with likes_count := p.likes_count + 1 }
              else p) := by
        simp only [handleLike, Bool.false_eq_true, if_false, hins]
        rfl
      rw [hlik]
      show postCount (handleLike db a c false nid).posts c = _
      rw [hposts, postCount_inc db.posts c hpost]
      show postCount db.posts c + 1 = _
      rw [show postCount db.posts c = likesCountOf db c from rfl, hcount,
        List.length_append, List.length_singleton]
      push_cast
      omega
    · rw [hlik]
      apply List.Nodup.append hnd (List.nodup_singleton a)
      intro x hx hxa
      rw [List.mem_singleton.mp hxa] at hx
      exact hmem hx
    · show ∃ p ∈ (handleLike db a c false nid).posts, p.id = c
      simp only [handleLike, Bool.false_eq_true, if_false, hins]
      exact exists_post_map db.posts c _ (fun p => by split <;> rfl) hpost
  | true =>
    have hmem : a ∈ likersOf db c := (liked_by_user_mem db a c).mp hl
    have hlen1 : 1 ≤ (likersOf db c).length := List.length_pos.mpr
      (fun he => by rw [he] at hmem; simp at hmem)
    have hlik : likersOf (handleLike db a c true nid) c
        = (likersOf db c).filter (fun u => !(u == a)) := by
      simp only [handleLike, if_true]
      show likersOf (decrement_likes (deleteLike db a c) c) c = _
      have : likersOf (decrement_likes (deleteLike db a c) c) c
          = likersOf (deleteLike db a c) c := rfl
      rw [this]
      simpa [likersOf, likesFor, deleteLike] using likers_delete db.likes a c
    have hlennew : (likersOf (handleLike db a c true nid) c).length + 1
        = (likersOf db c).length := by
      rw [hlik]
      exact length_filter_ne_of_nodup _ a hnd hmem
    refine ⟨?_, ?_, ?_⟩
    · have hposts : (handleLike db a c true nid).posts
          = db.posts.map (fun p =>
              if p.id == c then
                { p with likes_count := max (p.likes_count - 1) 0 }
              else p) := rfl
      show postCount (handleLike db a c true nid).posts c = _
      rw [hposts, postCount_dec db.posts c hpost]
      rw [show postCount db.posts c = likesCountOf db c from rfl, hcount]
      omega
    · rw [hlik]
      exact List.Nodup.filter _ hnd
    · show ∃ p ∈ (handleLike db a c true nid).posts, p.id = c
      exact exists_post_map db.posts c _ (fun p => by split <;> rfl) hpost

/-- The consistency invariant is preserved by any UI-guarded history. -/
theorem runUILikes_inv (c : String) (ops : List (String × String)) (db : DB)
    (h : LikeInv db c) : LikeInv (runUILikes c db ops) c := by
  induction ops generalizing db with
  | nil => exact h
  | cons op rest ih =>
    obtain ⟨a, nid⟩ := op
    exact ih _ (handleLike_ui_step db a c nid h)

/-- C1 (amended): under serial histories in which every call passes
`isLiked` equal to the current existence of the LikeFact — like only when
the pair is not in the ledger, unlike only when it is, exactly as the UI's
`liked_by_user` state arranges — the stored `likeCount` of a content item
equals the number of LikeFact rows referencing it. (The unguarded
double-like instead double-counts, as the counterexample shows.) -/
theorem likeCount_matches_ledger_under_ui_histories (db : DB) (c : String)
    (ops : List (String × String))
    (hcount : likesCountOf db c = ((likersOf db c).length : Int))
    (hnd : (likersOf db c).Nodup)
    (hpost : ∃ p ∈ db.posts, p.id = c) :
    likesCountOf (runUILikes c db ops) c
      = ((likesFor (runUILikes c db ops) c).length : Int) := by
  have := (runUILikes_inv c ops db ⟨hcount, hnd, hpost⟩).1
  rw [this]
  simp [likersOf]

/-- C1 witness: the spec's own scenario — like, unlike, like on a fresh
post — run through the amended theorem. -/
theorem likeCount_matches_ledger_witness :
    likesCountOf
        (runUILikes "c" ⟨[], [], [⟨"c", "o", 0⟩], []⟩
          [("P", "l1"), ("P", "l2"), ("P", "l3")]) "c"
      = ((likesFor
          (runUILikes "c" ⟨[], [], [⟨"c", "o", 0⟩], []⟩
            [("P", "l1"), ("P", "l2"), ("P", "l3")]) "c").length : Int) :=
  likeCount_matches_ledger_under_ui_histories
    ⟨[], [], [⟨"c", "o", 0⟩], []⟩ "c" [("P", "l1"), ("P", "l2"), ("P", "l3")]
    (by decide) (by decide) (by decide)

/-! ## C1 counterexample -/

/-- C1 counterexample: starting from a post with counter 0 and an empty
ledger, calling `like(P, c)` twice in sequence leaves exactly one LikeFact
but a counter of 2, not 1 — the second call's failed ledger insert is
discarded and the counter still increments. -/
theorem double_like_double_counts :
    (likesFor
        (handleLike
          (handleLike ⟨[], [], [⟨"c", "o", 0⟩], []⟩ "P" "c" false "l1")
          "P" "c" false "l2") "c").length = 1 ∧
      likesCountOf
        (handleLike
          (handleLike ⟨[], [], [⟨"c", "o", 0⟩], []⟩ "P" "c" false "l1")
          "P" "c" false "l2") "c" = 2 := by
  constructor
  · rfl
  · rfl

/-! ## C5: counter non-negativity -/

/-- The `posts` table of the store `handleLike` produces is the `posts`
table of the input store transformed by the counter rpc alone. -/
theorem handleLike_posts (db : DB) (a c : String) (b : Bool) (nid : String) :
    (handleLike db a c b nid).posts =
      (if b then decrement_likes db c else increment_likes db c).posts := by
  cases b with
  | true => rfl
  | false =>
    simp only [handleLike, Bool.false_eq_true, if_false, increment_likes]
    cases hins : insertLike db a c nid with
    | ok d => simp [insertLike_ok_posts hins]
    | error e => simp

/-- Every post of a store whose counters are all non-negative keeps a
non-negative counter through one `handleLike` call: the increment adds 1
and the decrement is floored at 0 by `GREATEST(likes_count - 1, 0)`. -/
theorem handleLike_nonneg (db : DB) (a c : String) (b : Bool) (nid : String)
    (h : ∀ p ∈ db.posts, 0 ≤ p.likes_count) :
    ∀ p ∈ (handleLike db a c b nid).posts, 0 ≤ p.likes_count := by
  intro p hp
  rw [handleLike_posts] at hp
  cases b with
  | true =>
    simp only [if_true, decrement_likes, List.mem_map] at hp
    obtain ⟨q, hq, rfl⟩ := hp
    split
    · exact le_max_right _ _
    · exact h q hq
  | false =>
    simp only [Bool.false_eq_true, if_false, increment_likes,
      List.mem_map] at hp
    obtain ⟨q, hq, rfl⟩ := hp
    split
    · show 0 ≤ q.likes_count + 1
      have := h q hq
      omega
    · exact h q hq

/-- A store whose counters are all non-negative has a non-negative stored
count for every post id. -/
theorem postCount_nonneg (posts : List Post) (c : String)
    (h : ∀ p ∈ posts, 0 ≤ p.likes_count) : 0 ≤ postCount posts c := by
  unfold postCount
  cases hf : posts.find? (fun p => p.id == c) with
  | none => exact le_refl 0
  | some p => exact h p (List.mem_of_find?_eq_some hf)

/-- Non-negativity of every counter is preserved by any list of
`handleLike` calls. -/
theorem runHandleLikes_nonneg (ops : List (String × String × Bool × String))
    (db : DB) (h : ∀ p ∈ db.posts, 0 ≤ p.likes_count) :
    ∀ p ∈ (runHandleLikes db ops).posts, 0 ≤ p.likes_count := by
  induction ops generalizing db with
  | nil => exact h
  | cons op rest ih =>
    obtain ⟨a, c, b, nid⟩ := op
    exact ih _ (handleLike_nonneg db a c b nid h)

/-- C5: for every content item and every sequence of like/unlike calls —
including unmatched unlikes with no corresponding LikeFact — the stored
`likes_count` never becomes negative, because `decrement_likes` floors at 0. -/
theorem likesCount_never_negative (db : DB) (c : String)
    (ops : List (String × String × Bool × String))
    (h : ∀ p ∈ db.posts, 0 ≤ p.likes_count) :
    0 ≤ likesCountOf (runHandleLikes db ops) c :=
  postCount_nonneg _ c (runHandleLikes_nonneg ops db h)

/-- C5 witness: two unmatched unlikes on a post whose counter starts at 0. -/
theorem likesCount_never_negative_witness :
    0 ≤ likesCountOf
      (runHandleLikes ⟨[], [], [⟨"c", "o", 0⟩], []⟩
        [("P", "c", true, "x"), ("P", "c", true, "y")]) "c" :=
  likesCount_never_negative ⟨[], [], [⟨"c", "o", 0⟩], []⟩ "c"
    [("P", "c", true, "x"), ("P", "c", true, "y")] (by decide)

/-! ## C7: terminate -/

/-- C7 counterexample: in the duplicate-pair store that
`createRequest(A, B)` followed by `createRequest(B, A)` produces (the store
of the C2 scenario), terminating the first record by A does delete it, but
`findBetween` on the two parties then returns the surviving
reverse-direction record, not none — so the claim's unconditional
"findBetween returns none afterwards" is false. -/
theorem terminate_leaves_reverse_record :
    deleteFriendship
        ⟨[], [⟨"f1", "A", "B", "pending"⟩, ⟨"f2", "B", "A", "pending"⟩],
          [], []⟩ "A" "f1"
        = Except.ok ⟨[], [⟨"f2", "B", "A", "pending"⟩], [], []⟩ ∧
      findBetween ⟨[], [⟨"f2", "B", "A", "pending"⟩], [], []⟩ "A" "B"
        = some ⟨"f2", "B", "A", "pending"⟩ := by
  constructor
  · rfl
  · rfl

/-- C7 (amended): for a relationship record in pending or accepted state,
`terminate` invoked by either stored party succeeds and deletes the record
unconditionally; `findBetween` on the two parties returns none afterwards
provided the record was the only Relationship record for the unordered
pair — in a reachable duplicate-pair store the surviving reverse record is
returned instead, as the counterexample shows. -/
theorem terminate_either_party_deletes (db : DB) (auth fid : String)
    (f : Friendship) (_hf : f ∈ db.friendships) (hid : f.id = fid)
    (hparty : auth = f.user_id ∨ auth = f.friend_id)
    (_hstate : f.status = "pending" ∨ f.status = "accepted")
    (huniq : ∀ g ∈ db.friendships,
      (g.user_id = f.user_id ∧ g.friend_id = f.friend_id) ∨
        (g.user_id = f.friend_id ∧ g.friend_id = f.user_id) → g = f) :
    ∃ db2, deleteFriendship db auth fid = Except.ok db2 ∧
      f ∉ db2.friendships ∧
      findBetween db2 f.user_id f.friend_id = none := by
  have hgone : (f.id == fid && (auth == f.user_id || auth == f.friend_id))
      = true := by
    rcases hparty with h | h <;> simp [hid, h]
  refine ⟨_, rfl, ?_, ?_⟩
  · intro hmem
    have := (List.mem_filter.mp hmem).2
    rw [hgone] at this
    exact Bool.noConfusion this
  · have hnil : friendshipsBetween
        { db with friendships := db.friendships.filter (fun g =>
            !(g.id == fid && (auth == g.user_id || auth == g.friend_id))) }
        f.user_id f.friend_id = [] := by
      unfold friendshipsBetween
      rw [List.filter_eq_nil_iff]
      intro g hg
      obtain ⟨hgdb, hkeep⟩ := List.mem_filter.mp hg
      intro hpair
      have hgf : g = f := by
        apply huniq g hgdb
        simpa [Bool.or_eq_true, Bool.and_eq_true, beq_iff_eq] using hpair
      rw [hgf, hgone] at hkeep
      exact Bool.noConfusion hkeep
    unfold findBetween
    rw [hnil]

/-- C7 witness: the target B unfriends an accepted relationship requested
by A; the record disappears and the pair lookup returns none. -/
theorem terminate_either_party_deletes_witness :
    ∃ db2,
      deleteFriendship ⟨[], [⟨"f1", "A", "B", "accepted"⟩], [], []⟩ "B" "f1"
          = Except.ok db2 ∧
        Friendship.mk "f1" "A" "B" "accepted" ∉ db2.friendships ∧
        findBetween db2 "A" "B" = none :=
  terminate_either_party_deletes
    ⟨[], [⟨"f1", "A", "B", "accepted"⟩], [], []⟩ "B" "f1"
    ⟨"f1", "A", "B", "accepted"⟩ (by decide) rfl (Or.inr rfl) (Or.inr rfl)
    (by decide)

/-! ## C6: concurrent likes -/

/-- A ledger insert step never touches the `posts` table. -/
theorem applyStep_ins_posts (c : String) (db : DB) (u nid : String) :
    (applyStep c db (.ins u nid)).posts = db.posts := by
  simp only [applyStep]
  cases hins : insertLike db u c nid with
  | ok d => exact insertLike_ok_posts hins
  | error e => rfl

/-- Under any interleaving, the final stored counter is the initial counter
plus the number of increment steps: the increment is a single atomic
server-side `likes_count = likes_count + 1`, so no interleaving loses an
update. -/
theorem execSteps_count (c : String) (ss : List LikeStep) (db : DB)
    (hpost : ∃ p ∈ db.posts, p.id = c) :
    likesCountOf (execSteps c db ss) c
      = likesCountOf db c + (incCount ss : Int) := by
  induction ss generalizing db with
  | nil => simp [execSteps, incCount]
  | cons s rest ih =>
    cases s with
    | ins u nid =>
      have hp := applyStep_ins_posts c db u nid
      have hpost2 : ∃ p ∈ (applyStep c db (.ins u nid)).posts, p.id = c := by
        rw [hp]; exact hpost
      show likesCountOf (execSteps c (applyStep c db (.ins u nid)) rest) c = _
      rw [ih _ hpost2]
      have hsame : likesCountOf (applyStep c db (.ins u nid)) c
          = likesCountOf db c := by
        unfold likesCountOf
        rw [hp]
      rw [hsame]
      simp [incCount]
    | inc =>
      have hcnt : likesCountOf (applyStep c db .inc) c
          = likesCountOf db c + 1 := postCount_inc db.posts c hpost
      have hpost2 : ∃ p ∈ (applyStep c db .inc).posts, p.id = c :=
        exists_post_map db.posts c _ (fun p => by split <;> rfl) hpost
      show likesCountOf (execSteps c (applyStep c db .inc) rest) c = _
      rw [ih _ hpost2, hcnt]
      simp [incCount]
      ring

/-- Under any interleaving whose insert users are pairwise distinct and not
yet in the ledger, every ledger insert succeeds: the final likers are the
initial likers followed by all insert users. -/
theorem execSteps_likers (c : String) (ss : List LikeStep) (db : DB)
    (hnd : (insUsers ss).Nodup)
    (hfree : ∀ u ∈ insUsers ss, liked_by_user db u c = false) :
    likersOf (execSteps c db ss) c = likersOf db c ++ insUsers ss := by
  induction ss generalizing db with
  | nil => simp [execSteps, insUsers]
  | cons s rest ih =>
    cases s with
    | inc =>
      have hnd2 : (insUsers rest).Nodup := hnd
      have hfree2 : ∀ u ∈ insUsers rest,
          liked_by_user (applyStep c db .inc) u c = false := fun u hu =>
        hfree u hu
      show likersOf (execSteps c (applyStep c db .inc) rest) c = _
      rw [ih _ hnd2 hfree2]
      rfl
    | ins u nid =>
      have hcons : insUsers (.ins u nid :: rest) = u :: insUsers rest := rfl
      rw [hcons] at hnd hfree
      have hu : u ∉ insUsers rest := (List.nodup_cons.mp hnd).1
      have hnd2 : (insUsers rest).Nodup := (List.nodup_cons.mp hnd).2
      have hl : liked_by_user db u c = false :=
        hfree u (List.mem_cons_self u _)
      have hins := insertLike_of_not_liked db u c nid hl
      have happ : applyStep c db (.ins u nid)
          = { db with likes :=
              db.likes ++ [{ id := nid, user_id := u, post_id := c }] } := by
        simp only [applyStep]
        rw [hins]
      have hlik : likersOf (applyStep c db (.ins u nid)) c
          = likersOf db c ++ [u] := by
        rw [happ]
        simp [likersOf, likesFor, List.filter_append]
      have hfree2 : ∀ v ∈ insUsers rest,
          liked_by_user (applyStep c db (.ins u nid)) v c = false := by
        intro v hv
        have hvu : v ≠ u := fun he => hu (he ▸ hv)
        rw [happ]
        simp only [liked_by_user, List.any_append, Bool.or_eq_false_iff]
        refine ⟨hfree v (List.mem_cons_of_mem u hv), ?_⟩
        simp [hvu.symm]
      show likersOf (execSteps c (applyStep c db (.ins u nid)) rest) c = _
      rw [ih _ hnd2 hfree2, hlik, hcons, List.append_assoc]
      rfl

/-- C6: the counter update is the atomic server-side
`likes_count = likes_count + 1` of `increment_likes`, so for N interleaved
`like(Pi, c)` calls by distinct profiles Pi on a fresh content item c —
each call a ledger insert step and an increment step, interleaved
arbitrarily — every ledger insert succeeds and the final counter equals N,
with no lost updates. -/
theorem concurrent_likes_no_lost_updates (db : DB) (c : String)
    (ps : List String) (ss : List LikeStep)
    (hfree : likesFor db c = [])
    (hcount : likesCountOf db c = 0)
    (hpost : ∃ p ∈ db.posts, p.id = c)
    (hnd : ps.Nodup)
    (hperm : List.Perm (insUsers ss) ps)
    (hinc : incCount ss = ps.length) :
    likesCountOf (execSteps c db ss) c = (ps.length : Int) ∧
      List.Perm (likersOf (execSteps c db ss) c) ps ∧
      ∀ p ∈ ps, liked_by_user (execSteps c db ss) p c = true := by
  have hlikers0 : likersOf db c = [] := by simp [likersOf, hfree]
  have hnd2 : (insUsers ss).Nodup := hperm.nodup_iff.mpr hnd
  have hfree2 : ∀ u ∈ insUsers ss, liked_by_user db u c = false := by
    intro u _
    cases hv : liked_by_user db u c
    · rfl
    · have := (liked_by_user_mem db u c).mp hv
      rw [hlikers0] at this
      simp at this
  have hlik := execSteps_likers c ss db hnd2 hfree2
  rw [hlikers0, List.nil_append] at hlik
  refine ⟨?_, ?_, ?_⟩
  · rw [execSteps_count c ss db hpost, hcount, hinc]
    simp
  · rw [hlik]
    exact hperm
  · intro p hp
    apply (liked_by_user_mem _ p c).mpr
    rw [hlik]
    exact hperm.mem_iff.mpr hp

/-- C6 witness: two sessions like the same fresh post, their ledger and
counter steps interleaved; both succeed and the counter ends at 2. -/
theorem concurrent_likes_no_lost_updates_witness :
    likesCountOf
        (execSteps "c" ⟨[], [], [⟨"c", "o", 0⟩], []⟩
          [.ins "P1" "a", .inc, .ins "P2" "b", .inc]) "c"
      = ((["P1", "P2"] : List String).length : Int) ∧
      List.Perm
        (likersOf
          (execSteps "c" ⟨[], [], [⟨"c", "o", 0⟩], []⟩
            [.ins "P1" "a", .inc, .ins "P2" "b", .inc]) "c")
        ["P1", "P2"] ∧
      ∀ p ∈ (["P1", "P2"] : List String),
        liked_by_user
          (execSteps "c" ⟨[], [], [⟨"c", "o", 0⟩], []⟩
            [.ins "P1" "a", .inc, .ins "P2" "b", .inc]) p "c" = true :=
  concurrent_likes_no_lost_updates ⟨[], [], [⟨"c", "o", 0⟩], []⟩ "c"
    ["P1", "P2"] [.ins "P1" "a", .inc, .ins "P2" "b", .inc]
    (by decide) (by decide) (by decide) (by decide) (by decide) (by decide)

/-! ## C10: searchProfiles -/

/-- The suffix list of any string contains the empty suffix, so a trailing
`%` always matches. -/
theorem tails_any_isEmpty (s : List Char) :
    s.tails.any (fun t => t.isEmpty) = true := by
  induction s with
  | nil => rfl
  | cons a s ih => simp only [List.tails, List.any_cons, ih, Bool.or_true]

/-- The empty string is matched at the start only by the empty fragment. -/
theorem firstMatch_nil (q : List Char) : firstMatch q [] = q.isEmpty := by
  cases q <;> rfl

/-- The unfolding of `likeMatch` on a non-escape head pattern character,
for symbolic tail pattern and value (the compiled equations are
constructor-specialized). -/
theorem likeMatch_cons (p : Char) (ps s : List Char)
    (hbsl : (p == '\\') = false) :
    likeMatch (p :: ps) s =
      (if (p == '%') = true then s.tails.any (fun t => likeMatch ps t)
       else match s with
            | [] => false
            | c :: rest =>
              if (p == '_') = true then likeMatch ps rest
              else c == p && likeMatch ps rest) := by
  cases ps <;> cases s <;> simp [likeMatch, hbsl]

/-- A pattern fragment free of wildcards and escapes, followed by `%`,
matches a string exactly when the fragment matches its start. -/
theorem likeMatch_literal (q : List Char) (hq : noWild q) :
    ∀ s, likeMatch (q ++ ['%']) s = firstMatch q s := by
  induction q with
  | nil =>
    intro s
    rw [List.nil_append, likeMatch_cons '%' [] s (by decide)]
    have e2 : (('%' : Char) == '%') = true := by decide
    simp only [e2, if_true]
    have hfn : (fun t : List Char => likeMatch [] t)
        = (fun t : List Char => t.isEmpty) :=
      funext (fun t => by simp [likeMatch])
    rw [hfn, tails_any_isEmpty]
    rfl
  | cons a q ih =>
    intro s
    have ha := hq a (List.mem_cons_self a q)
    have hq2 : noWild q := fun ch hch => hq ch (List.mem_cons_of_mem a hch)
    have hpct : (a == '%') = false := by simp [ha.1]
    have hund : (a == '_') = false := by simp [ha.2.1]
    have hbsl : (a == '\\') = false := by simp [ha.2.2]
    rw [List.cons_append, likeMatch_cons a (q ++ ['%']) s hbsl]
    cases s with
    | nil => simp [firstMatch, hpct]
    | cons c s => simp [firstMatch, hpct, hund, ih hq2 s]

/-- The spec-words substring test, expressed over all suffixes. -/
theorem containsSub_eq_tails (q s : List Char) :
    containsSub q s = s.tails.any (fun t => firstMatch q t) := by
  induction s with
  | nil => simp [containsSub, firstMatch_nil]
  | cons b s ih => simp only [containsSub, List.tails, List.any_cons, ih]

/-- For a query free of `*` (so the PostgREST translation is the identity
on it) and whose lowered characters are free of `%`, `_` and `\`, the
`%query%` ILIKE test of `searchUsers` is exactly the case-insensitive
substring test of the claim. -/
theorem ilike_wrap (query s : String) (hstar : '*' ∉ query.toList)
    (h : noWild (lowerStr query)) :
    ilike ("%" ++ query ++ "%") s = containsCI query s := by
  unfold ilike containsCI
  have h1 : ("%" ++ query ++ "%").toList = ('%' :: query.toList) ++ ['%'] := by
    show ("%" ++ query ++ "%").data = _
    rw [String.data_append, String.data_append]
    show (['%'] ++ query.data) ++ ['%'] = _
    simp
  have hq : query.toList.map (fun ch => if ch == '*' then '%' else ch)
      = query.toList := by
    rw [show query.toList.map (fun ch => if ch == '*' then '%' else ch)
        = query.toList.map (fun ch => ch) from
      List.map_congr_left (fun ch hch => by
        have : ch ≠ '*' := fun he => hstar (he ▸ hch)
        simp [this])]
    exact List.map_id _
  have htrans : postgrestLikeValue ("%" ++ query ++ "%")
      = '%' :: (query.toList ++ ['%']) := by
    unfold postgrestLikeValue
    rw [h1]
    simp only [List.map_cons, List.map_append, hq]
    rfl
  have hlower : ('%' :: (query.toList ++ ['%'])).map Char.toLower
      = '%' :: (lowerStr query ++ ['%']) := by
    simp only [List.map_cons, List.map_append]
    rfl
  rw [htrans, hlower,
    likeMatch_cons '%' (lowerStr query ++ ['%']) (lowerStr s) (by decide)]
  have e2 : (('%' : Char) == '%') = true := by decide
  simp only [e2, if_true]
  have hfun : (fun t => likeMatch (lowerStr query ++ ['%']) t)
      = (fun t => firstMatch (lowerStr query) t) :=
    funext (fun t => likeMatch_literal (lowerStr query) h t)
  rw [hfun, ← containsSub_eq_tails]

end SocialApp
